import Mathlib

/-!
Verification development for `daily_insights_bot.py`, a daily content
pipeline: fetch RSS feeds, filter by freshness, summarize and translate
each article, build a digest message and deliver it to a Telegram chat.

The Python source is shallowly embedded: pure fragments become Lean
functions; side effects (feed fetching, article download, model calls,
HTTP posts, logging) are modelled by explicit oracles passed as function
arguments and by traces recorded in the returned values.  Timestamps are
modelled as integers (seconds); Python `datetime` objects are modelled
by `PyDatetime`, an instant together with its timezone-awareness flag,
so the `TypeError` that CPython raises when ordering a naive against an
aware datetime is part of the model instead of being collapsed away;
expressions that can raise return `Except`.  Python string slicing and
string length both count code points, which matches Lean `String.data`
(a list of `Char`).
-/

/-- Configured feed sources, from module constant `RSS_FEEDS`:
(name, url) pairs. -/
def RSS_FEEDS : List (String × String) :=
  [("McKinsey Insights", "https://www.mckinsey.com/featured-insights/rss"),
   ("Harvard Business Review", "https://feeds.harvardbusiness.org/harvardbusiness"),
   ("Fortune Leadership", "https://fortune.com/category/leadership/feed"),
   ("World Economic Forum", "https://www.weforum.org/agenda/feed"),
   ("KPMG", "https://home.kpmg/us/en/blogs/home.rss")]

/-- Module constant `MAX_ITEMS = 5` (deliver exactly five insights). -/
def MAX_ITEMS : Nat := 5

/-- Module constant `MAX_ARTICLE_AGE_HOURS = 36`. -/
def MAX_ARTICLE_AGE_HOURS : Int := 36

/-- A raw feedparser entry.  Each field models the corresponding optional
attribute of a feedparser entry dict: `published` is `some p` (seconds
since the epoch, UTC) exactly when the entry has a parseable
`published_parsed` value, and the string fields model `e.get(...)`
lookups that may be absent. -/
structure RawEntry where
  title : Option String
  link : Option String
  summary : Option String
  published : Option Int
deriving DecidableEq, Repr

/-- One element of the list returned by `fetch_recent_entries`: the tuple
`(title, link, summary_html, published_dt)`. -/
structure CandidateEntry where
  title : String
  link : String
  summary : String
  published : Int
deriving DecidableEq, Repr

/-- The single-quote character, used by source-level message strings. -/
def squote : String := String.singleton (Char.ofNat 39)

/-- An exception escaping a Python expression; the feed loop can raise
`TypeError` from a datetime comparison. -/
inductive PyError where
  | typeError (msg : String)
deriving DecidableEq, Repr

/-- The CPython message of a naive/aware datetime comparison. -/
def naiveAwareCmpMsg : String :=
  "can" ++ squote ++ "t compare offset-naive and offset-aware datetimes"

/-- A Python `datetime` as far as ordering is concerned: an instant in
seconds plus whether the object is timezone-aware.  CPython refuses to
order a naive and an aware datetime. -/
structure PyDatetime where
  seconds : Int
  aware : Bool
deriving DecidableEq, Repr

/-- The `<` comparison of two `datetime` objects: comparing a
timezone-naive with a timezone-aware datetime raises `TypeError`
instead of returning a boolean. -/
def pyDatetimeLt (a b : PyDatetime) : Except PyError Bool :=
  if a.aware = b.aware then .ok (decide (a.seconds < b.seconds))
  else .error (PyError.typeError naiveAwareCmpMsg)

/-- The freshness cutoff seconds computed at the top of
`fetch_recent_entries`:
`datetime.utcnow() - timedelta(hours=MAX_ARTICLE_AGE_HOURS)`. -/
def cutoffTime (now : Int) : Int := now - MAX_ARTICLE_AGE_HOURS * 3600

/-- The cutoff as a datetime object: `datetime.utcnow()` carries no
tzinfo, so the cutoff is timezone-naive. -/
def cutoffDatetime (now : Int) : PyDatetime := ⟨cutoffTime now, false⟩

/-- The publication instant built at line 88 of the source:
`datetime(*e.published_parsed[:6], tzinfo=timezone.utc)` is
timezone-aware. -/
def publishedDatetime (p : Int) : PyDatetime := ⟨p, true⟩

/-- Building the tuple appended by `fetch_recent_entries`, including the
`e.get` defaults `"(no title)"` and `""`. -/
def entryCandidate (e : RawEntry) (p : Int) : CandidateEntry :=
  ⟨e.title.getD "(no title)", e.link.getD "", e.summary.getD "", p⟩

/-- The per-entry body of the loop in `fetch_recent_entries`: skip the
entry when `published_parsed` is absent (`continue`), then evaluate
`published < cutoff` — an aware/naive comparison, which raises
`TypeError` — and on a boolean either skip (`continue`) or keep the
tuple. -/
def keepEntry (now : Int) (e : RawEntry) : Except PyError (Option CandidateEntry) :=
  match e.published with
  | none => .ok none
  | some p =>
    match pyDatetimeLt (publishedDatetime p) (cutoffDatetime now) with
    | .error err => .error err
    | .ok true => .ok none
    | .ok false => .ok (some (entryCandidate e p))

/-- All tuples contributed by one feed: the inner loop of
`fetch_recent_entries` over `d.entries`, stopping with the exception of
the first entry whose comparison raises. -/
def sourceEntries (now : Int) : List RawEntry → Except PyError (List CandidateEntry)
  | [] => .ok []
  | e :: rest =>
    match keepEntry now e with
    | .error err => .error err
    | .ok none => sourceEntries now rest
    | .ok (some c) =>
      match sourceEntries now rest with
      | .error err => .error err
      | .ok cs => .ok (c :: cs)

/-- A model of the network world seen by `feedparser.parse`: for each
feed URL, either `some entries` (a successful fetch and parse) or `none`
(the fetch or parse failed). -/
def FeedWorld : Type := String → Option (List RawEntry)

/-- Models `feedparser.parse(url).entries`.  feedparser traps all fetch
and parse errors internally (recording them on the `bozo` flag) and never
raises; a failed source therefore yields an empty entry list. -/
def feedparser_parse (world : FeedWorld) (url : String) : List RawEntry :=
  (world url).getD []

/-- The sort order used by `entries.sort(key=lambda x: x[3], reverse=True)`:
newest first. -/
abbrev newerFirst (a b : CandidateEntry) : Prop := b.published ≤ a.published

instance : DecidableRel newerFirst := fun a b => Int.decLe b.published a.published

instance : IsTotal CandidateEntry newerFirst := ⟨fun a b => Int.le_total b.published a.published⟩

instance : IsTrans CandidateEntry newerFirst := ⟨fun _ _ _ h1 h2 => le_trans h2 h1⟩

/-- The outer loop of `fetch_recent_entries` over the configured
sources: entries accumulate across sources in order, and the first
raising entry aborts the whole loop with its exception. -/
def fetchSources (world : FeedWorld) (now : Int) :
    List (String × String) → Except PyError (List CandidateEntry)
  | [] => .ok []
  | su :: rest =>
    match sourceEntries now (feedparser_parse world su.2) with
    | .error err => .error err
    | .ok cs =>
      match fetchSources world now rest with
      | .error err => .error err
      | .ok cs2 => .ok (cs ++ cs2)

/-- `fetch_recent_entries`: loop over `RSS_FEEDS`, collect the fresh
entries of each source, sort the merged list newest first (Python
`list.sort` is a stable sort, as is insertion sort), and return the
first `MAX_ITEMS * 2` tuples — unless the loop raised, in which case
the exception propagates to the caller. -/
def fetch_recent_entries (world : FeedWorld) (now : Int) :
    Except PyError (List CandidateEntry) :=
  match fetchSources world now RSS_FEEDS with
  | .error err => .error err
  | .ok entries => .ok ((List.insertionSort newerFirst entries).take (MAX_ITEMS * 2))

/-- Executable instance of Python `html.unescape` (on the code-point
list of a string) used by the witnesses: it decodes the five character
references produced by `html.escape`.  The real library decodes the
full HTML5 entity table; the theorems do not rely on this instance
being CPython-equal — they use only the contract both satisfy: every
reference is at least as long as its replacement, so decoding never
lengthens the text, and no reference consumes a trailing ellipsis. -/
def unescapeList : List Char → List Char
  | [] => []
  | '&' :: rest =>
    match rest with
    | 'a' :: 'm' :: 'p' :: ';' :: r => '&' :: unescapeList r
    | 'l' :: 't' :: ';' :: r => '<' :: unescapeList r
    | 'g' :: 't' :: ';' :: r => '>' :: unescapeList r
    | 'q' :: 'u' :: 'o' :: 't' :: ';' :: r => '"' :: unescapeList r
    | '#' :: 'x' :: '2' :: '7' :: ';' :: r => Char.ofNat 39 :: unescapeList r
    | r => '&' :: unescapeList r
  | c :: rest => c :: unescapeList rest

/-- The `html.unescape` instance lifted back to strings. -/
def html_unescape (s : String) : String := ⟨unescapeList s.data⟩

/-- The exact set of code points Python `str.split()` (and
`str.isspace()`) treats as whitespace, checked against CPython by
enumerating all code points: 09-0D, 1C-1F, 20, 85, A0, 1680,
2000-200A, 2028, 2029, 202F, 205F and 3000. -/
def pyIsSpace (c : Char) : Bool :=
  decide ((0x09 ≤ c.toNat ∧ c.toNat ≤ 0x0D) ∨ (0x1C ≤ c.toNat ∧ c.toNat ≤ 0x1F) ∨
    c.toNat = 0x20 ∨ c.toNat = 0x85 ∨ c.toNat = 0xA0 ∨ c.toNat = 0x1680 ∨
    (0x2000 ≤ c.toNat ∧ c.toNat ≤ 0x200A) ∨ c.toNat = 0x2028 ∨ c.toNat = 0x2029 ∨
    c.toNat = 0x202F ∨ c.toNat = 0x205F ∨ c.toNat = 0x3000)

/-- Worker for Python `str.split()`: scan the code points, accumulating
the current word in reverse in `acc` and emitting it when a whitespace
run or the end of the input is reached. -/
def splitWsAux : List Char → List Char → List (List Char)
  | acc, [] => if acc.isEmpty then [] else [acc.reverse]
  | acc, c :: rest =>
    if pyIsSpace c then
      if acc.isEmpty then splitWsAux [] rest else acc.reverse :: splitWsAux [] rest
    else splitWsAux (c :: acc) rest

/-- Python `str.split()` with no separator argument, on code-point
lists: split on runs of whitespace, discarding empty pieces. -/
def pySplitWs (l : List Char) : List (List Char) := splitWsAux [] l

/-- Joining words with single spaces, modelling `" ".join(words)`. -/
def joinSpaces : List (List Char) → List Char
  | [] => []
  | [w] => w
  | w :: ws => w ++ ' ' :: joinSpaces ws

/-- Python `" ".join(s.split())`: collapse internal whitespace runs to
single spaces and strip the ends. -/
def collapseWs (s : String) : String := ⟨joinSpaces (pySplitWs s.data)⟩

/-- The greedy line fill of `textwrap`: keep appending the next word
(with its separating space) while the line stays within `budget`. -/
def joinWordsFit (budget : Nat) : List Char → List (List Char) → List Char
  | acc, [] => acc
  | acc, w :: ws =>
    if acc.length + 1 + w.length ≤ budget then joinWordsFit budget (acc ++ ' ' :: w) ws
    else acc

/-- The words kept by `textwrap` on its single line within `budget`
(the width minus the placeholder): greedy word fill.  A first word
exceeding the budget yields no kept text at all: the wrapper breaks it
(`break_long_words=True`) but every broken piece fills the line to the
full width, so the piece is popped again when the placeholder no longer
fits, and the bare placeholder remains — CPython
`shorten(2500*a, width=2000, placeholder=ellipsis)` returns just the
ellipsis. -/
def takeFit (budget : Nat) : List (List Char) → List Char
  | [] => []
  | w :: ws => if w.length ≤ budget then joinWordsFit budget w ws else []

/-- Executable instance of `textwrap.shorten(text, width, placeholder)`
used by the witnesses: collapse the whitespace of `text`; if the
collapsed text fits in `width` return it, otherwise keep as many
whitespace-separated words as fit in `width - placeholder.length` and
append the placeholder (checked against CPython on word lists; the real
wrapper additionally splits chunks at hyphens, which the theorems do
not rely on — they use only the documented contract: output never
exceeds `width`, and ends with the placeholder when the collapsed text
did not fit). -/
def shortenList (width : Nat) (placeholder : List Char) (text : List Char) : List Char :=
  let c := joinSpaces (pySplitWs text)
  if c.length ≤ width then c
  else takeFit (width - placeholder.length) (pySplitWs text) ++ placeholder

/-- String-level wrapper for the `textwrap.shorten` instance. -/
def pyShorten (text : String) (width : Nat) (placeholder : String) : String :=
  ⟨shortenList width placeholder.data text.data⟩

/-- The placeholder passed to `textwrap.shorten` in `extract_text`. -/
def ellipsis : String := "…"

/-- The fallback branch of `extract_text` (the final return expression),
parameterized over the two library calls it makes:
`unescapeF (shortenF (" ".join(unescapeF(fallback_html).split())) 2000 ellipsis)`,
with `unescapeF` standing for `html.unescape` and `shortenF` for
`textwrap.shorten`. -/
def fallbackCleanP (unescapeF : String → String)
    (shortenF : String → Nat → String → String) (fallback_html : String) : String :=
  unescapeF (shortenF (collapseWs (unescapeF fallback_html)) 2000 ellipsis)

/-- `extract_text(url, fallback_html)`, parameterized over the library
boundary.  The newspaper3k path is modelled by an oracle value: `some t`
means the library was available and `Article(url).download(); parse()`
produced text `t`; `none` means the library was absent or
download/parse raised (the exception is caught and logged).  Non-empty
extracted text is returned as is; otherwise the sanitized fallback
summary is returned, so the function is total and never propagates a
failure. -/
def extract_textP (unescapeF : String → String)
    (shortenF : String → Nat → String → String)
    (article : Option String) (fallback_html : String) : String :=
  match article with
  | some t => if t = "" then fallbackCleanP unescapeF shortenF fallback_html else t
  | none => fallbackCleanP unescapeF shortenF fallback_html

/-- The fallback text with the executable library instances plugged
in. -/
def fallbackClean (fallback_html : String) : String :=
  fallbackCleanP html_unescape pyShorten fallback_html

/-- `extract_text` with the executable library instances plugged in;
this is the value the processing loop consumes. -/
def extract_text (article : Option String) (fallback_html : String) : String :=
  extract_textP html_unescape pyShorten article fallback_html

/-- One processed item `(title, en_summary, fa_summary)` appended by
`run_once` after both model calls succeed. -/
structure ProcessedItem where
  title : String
  en : String
  fa : String
deriving DecidableEq, Repr

/-- Escaping of one character, modelling Python
`html.escape(s, quote=True)` (the default), which rewrites `&`, `<`,
`>`, the double quote and the apostrophe. -/
def escapeChar (c : Char) : String :=
  if c = '&' then "&amp;"
  else if c = '<' then "&lt;"
  else if c = '>' then "&gt;"
  else if c = '"' then "&quot;"
  else if c = Char.ofNat 39 then "&#x27;"
  else String.singleton c

/-- Python `html.escape(s, quote=True)`. -/
def html_escape (s : String) : String := String.join (s.data.map escapeChar)

/-- The lines accumulated by the loop of `build_message`, with the
1-based index from `enumerate(items, 1)`. -/
def blockLines (idx : Nat) : List ProcessedItem → List String
  | [] => []
  | it :: rest =>
    ("📌 Insight #" ++ toString idx ++ ":") ::
    ("🗞 Title: " ++ html_escape it.title) ::
    ("✍️ English Summary (Formal): " ++ html_escape it.en) ::
    ("🈯 Persian Translation (Formal): " ++ html_escape it.fa) ::
    "\n" :: blockLines (idx + 1) rest

/-- `build_message(items)`: join the lines with newlines and truncate to
the first 4000 code points (`"\n".join(lines)[:4000]`, the Telegram
safety cap under the 4096-character channel limit). -/
def build_message (items : List ProcessedItem) : String :=
  ⟨(String.intercalate "\n" (blockLines 1 items)).data.take 4000⟩

/-- A log record emitted through the `logging` module. -/
inductive LogMsg where
  | info (msg : String)
  | warning (msg : String)
  | error (msg : String)
deriving DecidableEq, Repr

/-- The message of `logging.error("OpenAI failed for %s: %s", title, exc)`
in `run_once` (the title is wrapped in single quotes in the source
format string). -/
def openaiFailMsg (title exc : String) : String :=
  "OpenAI failed for " ++ squote ++ title ++ squote ++ ": " ++ exc

/-- The result of the two chained model calls of `run_once` for one
entry.  `net` is the newspaper3k oracle consumed by `extract_text`
(indexed by the entry link); `summarizeOracle` and `translateOracle`
model `summarize` and `translate_persian`, each returning either the
generated text or the message of a raised exception (quota, timeout,
malformed response...).  The value is the `ProcessedItem` appended on
success, or the exception message caught by the `except` clause. -/
def processOne (net : String → Option String)
    (summarizeOracle translateOracle : String → Except String String)
    (e : CandidateEntry) : Except String ProcessedItem :=
  let full_text := extract_text (net e.link) e.summary
  match summarizeOracle full_text with
  | .error exc => .error exc
  | .ok en =>
    match translateOracle en with
    | .error exc => .error exc
    | .ok fa => .ok ⟨e.title, en, fa⟩

/-- The processing loop of `run_once`: walk the candidate entries,
`break` once `MAX_ITEMS` items are accumulated, log each processed
title, and on a model-call failure log the error and continue with the
next entry.  Returns the accumulated items and the log records the loop
emitted. -/
def processLoop (net : String → Option String)
    (summarizeOracle translateOracle : String → Except String String) :
    List CandidateEntry → List ProcessedItem → List ProcessedItem × List LogMsg
  | [], acc => (acc, [])
  | e :: rest, acc =>
    if MAX_ITEMS ≤ acc.length then (acc, [])
    else
      match processOne net summarizeOracle translateOracle e with
      | .error exc =>
        let r := processLoop net summarizeOracle translateOracle rest acc
        (r.1, LogMsg.info ("Processing: " ++ e.title) ::
              LogMsg.error (openaiFailMsg e.title exc) :: r.2)
      | .ok it =>
        let r := processLoop net summarizeOracle translateOracle rest (acc ++ [it])
        (r.1, LogMsg.info ("Processing: " ++ e.title) :: r.2)

/-- The Telegram sendMessage response, as seen through `requests`:
`ok` models `resp.ok` and `text` models `resp.text` (the error body). -/
structure TelegramResponse where
  ok : Bool
  text : String
deriving DecidableEq, Repr

/-- One HTTP POST recorded by the delivery model: the request URL and
the `data` fields `chat_id` and `text`. -/
structure HttpRequest where
  url : String
  chat_id : String
  text : String
deriving DecidableEq, Repr

/-- The POST request issued by `send_telegram`: the sendMessage URL
built from the bot token, with the `chat_id` and `text` data fields. -/
def telegramRequest (botToken chatId text : String) : HttpRequest :=
  ⟨"https://api.telegram.org/bot" ++ botToken ++ "/sendMessage", chatId, text⟩

/-- `send_telegram(text)`.  `botToken` and `chatId` model the module
constants read from the environment (an unset variable is the empty
string, which is falsy in Python); `post` models `requests.post`.  The
result is the raised `RuntimeError` message or unit, paired with the
list of POST requests actually issued, in order. -/
def send_telegram (botToken chatId : String) (post : HttpRequest → TelegramResponse)
    (text : String) : Except String Unit × List HttpRequest :=
  if botToken = "" ∨ chatId = "" then (.error "Telegram credentials missing.", [])
  else
    let resp := post (telegramRequest botToken chatId text)
    if resp.ok then (.ok (), [telegramRequest botToken chatId text])
    else (.error ("Telegram error: " ++ resp.text), [telegramRequest botToken chatId text])

/-- Everything observable about one `run_once` invocation: the items
that survived processing, the emitted log, how many times the delivery
client `send_telegram` was entered, the POST requests it issued, the
message text handed to it (if any), and the overall outcome (`error`
models an uncaught exception propagating out of `run_once`). -/
structure RunTrace where
  processed : List ProcessedItem
  log : List LogMsg
  sendCalls : Nat
  requests : List HttpRequest
  message : Option String
  result : Except String Unit
deriving Repr

/-- `run_once()`: fetch the recent entries — a call made outside any
`try`, so an exception from the feed loop propagates and ends the run
with nothing processed, no warning and no delivery — then process the
entries through the model calls, and either warn and return when
nothing was processed, or build the digest message and deliver it. -/
def run_once (world : FeedWorld) (now : Int) (net : String → Option String)
    (summarizeOracle translateOracle : String → Except String String)
    (botToken chatId : String) (post : HttpRequest → TelegramResponse) : RunTrace :=
  match fetch_recent_entries world now with
  | .error (PyError.typeError msg) =>
    ⟨[], [LogMsg.info "Fetching recent entries…"], 0, [], none, .error msg⟩
  | .ok entries =>
  let pr := processLoop net summarizeOracle translateOracle entries []
  if pr.1.isEmpty then
    ⟨pr.1, LogMsg.info "Fetching recent entries…" :: pr.2 ++
        [LogMsg.warning "No items processed – aborting send."],
     0, [], none, .ok ()⟩
  else
    let message := build_message pr.1
    let sr := send_telegram botToken chatId post message
    ⟨pr.1, LogMsg.info "Fetching recent entries…" :: pr.2 ++
        (match sr.1 with
         | .ok _ =>
           [LogMsg.info ("Message sent to Telegram (length " ++ toString message.length ++ ")")]
         | .error _ => []),
     1, sr.2, some message, sr.1⟩

/-- Seconds per day. -/
def secondsPerDay : Nat := 86400

/-- The daily target wall-clock time 09:30 in Asia/Tehran, as seconds
after local midnight: the result of
`now_teh.replace(hour=9, minute=30, second=0, microsecond=0)` relative
to the start of the current local day. -/
def tehranTarget : Nat := 9 * 3600 + 30 * 60

/-- The next-run computation of the continuous-mode loop.  `now` is the
current Asia/Tehran wall-clock time in seconds since the local epoch
(Tehran is a fixed UTC+3:30 offset with no DST, so local time is a
constant shift of UTC and wall-clock arithmetic on it is exact):
`target = now.replace(hour=9, minute=30, second=0, microsecond=0)`,
and a day is added when `now >= target`. -/
def nextRunTime (now : Nat) : Nat :=
  if now / secondsPerDay * secondsPerDay + tehranTarget ≤ now then
    now / secondsPerDay * secondsPerDay + tehranTarget + secondsPerDay
  else
    now / secondsPerDay * secondsPerDay + tehranTarget

/-- `sleep_seconds = (target - now_teh).total_seconds()`. -/
def sleepSeconds (now : Nat) : Nat := nextRunTime now - now

/-- The continuous-mode `while True` loop, run for at most `fuel`
iterations.  `runs i` is the outcome of the `i`-th `run_once()` call
(counted from `start`): `ok` for a normal return, `error` for an
uncaught exception.  The loop body has no exception handler, so an
erroring iteration ends the loop.  Returns how many `run_once` calls
were made and the propagated exception, if any. -/
def daemonRun (runs : Nat → Except String Unit) : Nat → Nat → Nat × Option String
  | _, 0 => (0, none)
  | start, fuel + 1 =>
    match runs start with
    | .error e => (1, some e)
    | .ok _ =>
      let r := daemonRun runs (start + 1) fuel
      (r.1 + 1, r.2)

/-- Concrete fixture: a feed world where the first configured source
returns a single entry and every other source returns no entries. -/
def singletonWorld (e : RawEntry) : FeedWorld :=
  fun url => if url = "https://www.mckinsey.com/featured-insights/rss" then some [e] else some []

/-- Concrete fixture: a raw entry published at time 100. -/
def raw100 : RawEntry := ⟨some "T", some "L", some "S", some 100⟩

/-- Concrete fixture: a raw entry without a parseable publication
timestamp. -/
def rawUndated : RawEntry := ⟨some "T", some "L", some "S", none⟩

/-- Concrete fixture: a raw entry published exactly at the freshness
cutoff of time 200000. -/
def rawAtCutoff : RawEntry := ⟨some "T", some "L", some "S", some (cutoffTime 200000)⟩

/-- Concrete fixture: every source fetches successfully but is empty. -/
def worldEmpty : FeedWorld := fun _ => some []

/-- Concrete fixture: every source fetches successfully and returns one
entry published at time 50. -/
def okWorld : FeedWorld := fun _ => some [⟨some "A", some "la", some "sa", some 50⟩]

/-- Concrete fixture: like `okWorld`, except that fetching the KPMG feed
fails. -/
def failWorld : FeedWorld :=
  fun u => if u = "https://home.kpmg/us/en/blogs/home.rss" then none else okWorld u

/-- Concrete fixture: newspaper3k extraction always succeeds with a
fixed body. -/
def net0 : String → Option String := fun _ => some "body"

/-- Concrete fixture: a model call that echoes its input. -/
def okOracle : String → Except String String := fun s => .ok s

/-- Concrete fixture: a model call that always raises. -/
def sumFail : String → Except String String := fun _ => .error "quota exceeded"

/-- Concrete fixture: the Telegram endpoint accepts the message. -/
def postOk : HttpRequest → TelegramResponse := fun _ => ⟨true, "ok"⟩

/-- Concrete fixture: the Telegram endpoint rejects the message. -/
def postFail : HttpRequest → TelegramResponse := fun _ => ⟨false, "bad request"⟩

/-- Concrete fixture: the first daemon iteration raises (a failed
delivery) and all later iterations would succeed. -/
def crashRuns : Nat → Except String Unit :=
  fun i => if i = 0 then .error "Telegram error: boom" else .ok ()

/-- Concrete fixture: a raw feed summary of 2500 identical characters,
longer than the 2000-character fallback budget. -/
def bigFallback : String := ⟨List.replicate 2500 'a'⟩

/-- Concrete fixture: two candidate entries for the processing loop. -/
def cand1 : CandidateEntry := ⟨"Title A", "l1", "s1", 5⟩

/-- Concrete fixture: a second candidate entry. -/
def cand2 : CandidateEntry := ⟨"Title B", "l2", "s2", 4⟩

/-! Theorems. -/

/-- C5: for every input list of 1 to 5 `ProcessedItem`s, whatever the
lengths of the titles and summaries, the string returned by
`build_message` never exceeds the 4000-character safety cap. -/
theorem build_message_length_cap (items : List ProcessedItem)
    (h1 : 1 ≤ items.length) (h5 : items.length ≤ MAX_ITEMS) :
    (build_message items).length ≤ 4000 := by
  show ((String.intercalate "\n" (blockLines 1 items)).data.take 4000).length ≤ 4000
  exact List.length_take_le 4000 _

/-- Witness for `build_message_length_cap` at a concrete item list. -/
theorem build_message_length_cap_witness :
    (build_message [⟨"a", "b", "c"⟩]).length ≤ 4000 :=
  build_message_length_cap [⟨"a", "b", "c"⟩] (by decide) (by decide)

/-- C7: `send_telegram` raises a configuration error and issues no POST
request when the credential or the chat id is missing; otherwise it
issues exactly one POST request (no retry), succeeds when the response
is ok and raises an error carrying the response body otherwise. -/
theorem send_telegram_contract (botToken chatId : String)
    (post : HttpRequest → TelegramResponse) (text : String) :
    (botToken = "" ∨ chatId = "" →
      send_telegram botToken chatId post text =
        (.error "Telegram credentials missing.", [])) ∧
    (botToken ≠ "" → chatId ≠ "" →
      (send_telegram botToken chatId post text).2 =
        [telegramRequest botToken chatId text] ∧
      ((post (telegramRequest botToken chatId text)).ok →
        (send_telegram botToken chatId post text).1 = .ok ()) ∧
      (¬ (post (telegramRequest botToken chatId text)).ok →
        (send_telegram botToken chatId post text).1 =
          .error ("Telegram error: " ++ (post (telegramRequest botToken chatId text)).text))) := by
  constructor
  · intro h
    simp only [send_telegram, if_pos h]
  · intro ht hc
    have hcond : ¬ (botToken = "" ∨ chatId = "") := by
      rintro (h | h)
      · exact ht h
      · exact hc h
    refine ⟨?_, ?_, ?_⟩
    · by_cases hok : (post (telegramRequest botToken chatId text)).ok <;>
        simp only [send_telegram, if_neg hcond, hok, if_true, if_false, Bool.false_eq_true,
          ite_true, ite_false]
    · intro hok
      simp only [send_telegram, if_neg hcond, hok, ite_true]
    · intro hok
      simp only [send_telegram, if_neg hcond]
      rw [if_neg hok]

/-- Witness for `send_telegram_contract`: missing credentials fail
before any POST, and a rejected POST raises the channel error body. -/
theorem send_telegram_contract_witness :
    send_telegram "" "c" postFail "hi" = (.error "Telegram credentials missing.", []) ∧
    (send_telegram "t" "c" postFail "hi").1 =
      .error ("Telegram error: " ++ "bad request") := by
  refine ⟨(send_telegram_contract "" "c" postFail "hi").1 (Or.inl rfl), ?_⟩
  exact ((send_telegram_contract "t" "c" postFail "hi").2 (by decide) (by decide)).2.2
    (by decide)

/-- C8: the continuous-mode target computation.  `nextRunTime now` is
09:30 Tehran wall-clock time, lies strictly in the future, and is the
earliest such instant; it equals the 09:30 of the current day when the
current time is before 09:30 and the 09:30 of the next day otherwise;
and the computed sleep
duration wakes the process exactly at that instant. -/
theorem next_run_time_spec (now : Nat) :
    nextRunTime now % secondsPerDay = tehranTarget ∧
    now < nextRunTime now ∧
    (∀ t : Nat, t % secondsPerDay = tehranTarget → now < t → nextRunTime now ≤ t) ∧
    (now % secondsPerDay < tehranTarget →
      nextRunTime now = now / secondsPerDay * secondsPerDay + tehranTarget) ∧
    (tehranTarget ≤ now % secondsPerDay →
      nextRunTime now = now / secondsPerDay * secondsPerDay + tehranTarget + secondsPerDay) ∧
    now + sleepSeconds now = nextRunTime now := by
  unfold sleepSeconds nextRunTime secondsPerDay tehranTarget
  refine ⟨?_, ?_, ?_, ?_, ?_, ?_⟩ <;> (try split) <;> (try intro t h1 h2) <;> (try intro h) <;>
    omega

/-- Witness for `next_run_time_spec` at the concrete time 40000 s
(11:06:40 local, after 09:30): the next run is tomorrow at 09:30
(120600 s) and no earlier 09:30 instant is missed. -/
theorem next_run_time_spec_witness :
    nextRunTime 40000 ≤ 120600 ∧
    nextRunTime 40000 = 40000 / secondsPerDay * secondsPerDay + tehranTarget + secondsPerDay :=
  ⟨(next_run_time_spec 40000).2.2.1 120600 (by decide) (by decide),
   (next_run_time_spec 40000).2.2.2.2.1 (by decide)⟩

/-- C9: evaluation of the daemon loop at a failing iteration.  The
`while True` loop of the continuous mode does not guard `run_once()`
with any exception handler, so when the first iteration raises (here a
failed delivery), only one `run_once` call is ever made even though
three iterations of fuel are available: the error propagates and the
loop terminates instead of attempting the next scheduled iteration. -/
theorem daemon_crash_on_error :
    daemonRun crashRuns 0 3 = (1, some "Telegram error: boom") := rfl

/-- C10: the freshness comparison never evaluates.  For every entry
with a parseable publication timestamp — in particular one published
exactly at the cutoff — the filter raises `TypeError` from
`published < cutoff` (timezone-aware `published` against the
timezone-naive `utcnow()` cutoff), so the claimed inclusive retention
at the boundary is not a behavior the program exhibits. -/
theorem freshness_filter_raises (now : Int) (e : RawEntry) (p : Int)
    (hpub : e.published = some p) :
    keepEntry now e = .error (PyError.typeError naiveAwareCmpMsg) := by
  simp [keepEntry, hpub, pyDatetimeLt, publishedDatetime, cutoffDatetime]

/-- Witness for `freshness_filter_raises`: at time 200000, an entry
published exactly 36 hours earlier — exactly at the cutoff — raises
instead of being retained. -/
theorem freshness_filter_raises_witness :
    keepEntry 200000 rawAtCutoff = .error (PyError.typeError naiveAwareCmpMsg) :=
  freshness_filter_raises 200000 rawAtCutoff (cutoffTime 200000) rfl

/-- The source loop of `fetch_recent_entries` depends on the world only
through the parsed entry lists of the visited URLs. -/
theorem fetchSources_congr (world world₂ : FeedWorld) (now : Int)
    (srcs : List (String × String))
    (h : ∀ u : String, feedparser_parse world₂ u = feedparser_parse world u) :
    fetchSources world₂ now srcs = fetchSources world now srcs := by
  induction srcs with
  | nil => rfl
  | cons su rest ih => simp only [fetchSources, h su.2, ih]

/-- C2: source failure isolation in `fetch_recent_entries`.  If the
world `world₂` is the world `world` with the fetch of source `url`
failing, then the failed source contributes zero entries and raises
nothing (feedparser traps the failure and yields an empty entry list),
every other source contributes exactly what it contributes in `world`
(the same entries, or the same `TypeError`), and the whole function
behaves exactly as if the failed source had successfully returned an
empty feed — the fetch failure itself is never raised to the caller. -/
theorem source_failure_isolation (world world₂ : FeedWorld) (now : Int) (url : String)
    (hfail : world₂ url = none)
    (hsame : ∀ u : String, u ≠ url → world₂ u = world u) :
    sourceEntries now (feedparser_parse world₂ url) = .ok [] ∧
    (∀ u : String, u ≠ url →
      sourceEntries now (feedparser_parse world₂ u) =
        sourceEntries now (feedparser_parse world u)) ∧
    fetch_recent_entries world₂ now =
      fetch_recent_entries (fun u => if u = url then some [] else world u) now := by
  refine ⟨?_, ?_, ?_⟩
  · simp [feedparser_parse, hfail, sourceEntries]
  · intro u hu
    unfold feedparser_parse
    rw [hsame u hu]
  · unfold fetch_recent_entries
    rw [fetchSources_congr _ world₂ now RSS_FEEDS ?_]
    intro u
    show (world₂ u).getD [] = (if u = url then some [] else world u).getD []
    by_cases hu : u = url
    · rw [hu, hfail, if_pos rfl]
      rfl
    · rw [hsame u hu, if_neg hu]

/-- Witness for `source_failure_isolation`: with the KPMG fetch failing,
KPMG contributes nothing, the McKinsey contribution is unchanged, and
the run behaves as if KPMG had returned an empty feed. -/
theorem source_failure_isolation_witness :
    sourceEntries 100 (feedparser_parse failWorld "https://home.kpmg/us/en/blogs/home.rss") =
      .ok [] ∧
    sourceEntries 100
        (feedparser_parse failWorld "https://www.mckinsey.com/featured-insights/rss") =
      sourceEntries 100
        (feedparser_parse okWorld "https://www.mckinsey.com/featured-insights/rss") ∧
    fetch_recent_entries failWorld 100 =
      fetch_recent_entries
        (fun u => if u = "https://home.kpmg/us/en/blogs/home.rss" then some []
          else okWorld u) 100 := by
  have h := source_failure_isolation okWorld failWorld 100
    "https://home.kpmg/us/en/blogs/home.rss" (by decide) (fun u hu => if_neg hu)
  exact ⟨h.1, h.2.1 "https://www.mckinsey.com/featured-insights/rss" (by decide), h.2.2⟩

/-- Once `MAX_ITEMS` items are accumulated, the processing loop breaks
immediately: no further entry is attempted and no further log is
emitted. -/
theorem processLoop_of_full (net : String → Option String)
    (so tro : String → Except String String) (l : List CandidateEntry)
    (acc : List ProcessedItem) (h : MAX_ITEMS ≤ acc.length) :
    processLoop net so tro l acc = (acc, []) := by
  cases l with
  | nil => rfl
  | cons e rest => simp only [processLoop, if_pos h]

/-- The processing loop splits over list concatenation: the second part
continues from the accumulator produced by the first, and the logs
concatenate. -/
theorem processLoop_append (net : String → Option String)
    (so tro : String → Except String String) (l1 l2 : List CandidateEntry)
    (acc : List ProcessedItem) :
    processLoop net so tro (l1 ++ l2) acc =
      ((processLoop net so tro l2 (processLoop net so tro l1 acc).1).1,
       (processLoop net so tro l1 acc).2 ++
         (processLoop net so tro l2 (processLoop net so tro l1 acc).1).2) := by
  induction l1 generalizing acc with
  | nil => simp [processLoop]
  | cons e rest ih =>
    rw [List.cons_append]
    by_cases hfull : MAX_ITEMS ≤ acc.length
    · simp only [processLoop, if_pos hfull]
      rw [processLoop_of_full net so tro l2 acc hfull]
      simp
    · simp only [processLoop, if_neg hfull]
      cases hpo : processOne net so tro e with
      | error exc => simp [ih]
      | ok it => simp [ih]

/-- The accumulator of the processing loop never exceeds `MAX_ITEMS`
items, because of the `break` at the top of the loop body. -/
theorem processLoop_length_le (net : String → Option String)
    (so tro : String → Except String String) (l : List CandidateEntry)
    (acc : List ProcessedItem) (h : acc.length ≤ MAX_ITEMS) :
    (processLoop net so tro l acc).1.length ≤ MAX_ITEMS := by
  induction l generalizing acc with
  | nil => simpa [processLoop] using h
  | cons e rest ih =>
    by_cases hfull : MAX_ITEMS ≤ acc.length
    · simp only [processLoop, if_pos hfull]
      exact h
    · simp only [processLoop, if_neg hfull]
      cases hpo : processOne net so tro e with
      | error exc => simpa using ih acc h
      | ok it =>
        have hlen : (acc ++ [it]).length ≤ MAX_ITEMS := by
          simp only [List.length_append, List.length_singleton]
          omega
        simpa using ih (acc ++ [it]) hlen

/-- C4: a model-call failure (summarize or translate) for one entry is
caught inside the processing loop of `run_once` and only drops that
entry: the processed items are exactly those obtained with the failing
entry removed from the candidate list (the result of every other entry is
unaffected), and whenever the loop reaches the failing entry the error
is logged together with the title of the entry. -/
theorem model_failure_drops_single_entry (net : String → Option String)
    (so tro : String → Except String String) (l1 l2 : List CandidateEntry)
    (e : CandidateEntry) (exc : String)
    (hfail : processOne net so tro e = .error exc) :
    (processLoop net so tro (l1 ++ e :: l2) []).1 = (processLoop net so tro (l1 ++ l2) []).1 ∧
    ((processLoop net so tro l1 []).1.length < MAX_ITEMS →
      LogMsg.error (openaiFailMsg e.title exc) ∈ (processLoop net so tro (l1 ++ e :: l2) []).2) := by
  rw [processLoop_append net so tro l1 (e :: l2) [],
    processLoop_append net so tro l1 l2 []]
  constructor
  · by_cases hfull : MAX_ITEMS ≤ (processLoop net so tro l1 []).1.length
    · simp only [processLoop, if_pos hfull,
        processLoop_of_full net so tro l2 _ hfull]
    · simp only [processLoop, if_neg hfull, hfail]
  · intro hlt
    have hnfull : ¬ MAX_ITEMS ≤ (processLoop net so tro l1 []).1.length :=
      Nat.not_le_of_lt hlt
    simp only [processLoop, if_neg hnfull, hfail]
    simp

/-- Witness for `model_failure_drops_single_entry`: with a failing
summarize call, processing `[cand1, cand2]` yields the same items as
processing `[cand2]` alone, and the failure is logged with the title of
`cand1`. -/
theorem model_failure_drops_single_entry_witness :
    (processLoop net0 sumFail okOracle ([] ++ cand1 :: [cand2]) []).1 =
      (processLoop net0 sumFail okOracle ([] ++ [cand2]) []).1 ∧
    LogMsg.error (openaiFailMsg cand1.title "quota exceeded") ∈
      (processLoop net0 sumFail okOracle ([] ++ cand1 :: [cand2]) []).2 := by
  have h := model_failure_drops_single_entry net0 sumFail okOracle [] [cand2] cand1
    "quota exceeded" rfl
  exact ⟨h.1, h.2 (by decide)⟩

/-- C3: evaluation of `run_once` at a failing input.  With a single
dated feed entry, `fetch_recent_entries` raises `TypeError` before the
processing loop: the run ends with zero items processed, yet neither
logs the abort warning nor returns normally, and the delivery client is
never entered — the claimed warn-and-return behavior for zero processed
items does not occur. -/
theorem run_once_crashes_on_dated_entry :
    (run_once (singletonWorld raw100) 100 net0 okOracle okOracle "t" "c" postOk).result =
      .error naiveAwareCmpMsg ∧
    (run_once (singletonWorld raw100) 100 net0 okOracle okOracle "t" "c" postOk).processed = [] ∧
    (run_once (singletonWorld raw100) 100 net0 okOracle okOracle "t" "c" postOk).sendCalls = 0 ∧
    LogMsg.warning "No items processed – aborting send." ∉
      (run_once (singletonWorld raw100) 100 net0 okOracle okOracle "t" "c" postOk).log :=
  ⟨rfl, rfl, rfl, by decide⟩

/-- C1: evaluation of `fetch_recent_entries` at a failing input.  A
single entry with a parseable publication timestamp makes the function
raise `TypeError` (aware `published` compared against the naive
`utcnow()` cutoff) instead of returning the filtered, sorted, capped
list; the only runs that return at all are those in which every entry
lacks a parseable timestamp, and they return the empty list. -/
theorem fetch_crashes_on_dated_entry :
    fetch_recent_entries (singletonWorld raw100) 100 =
      .error (PyError.typeError naiveAwareCmpMsg) ∧
    fetch_recent_entries worldEmpty 0 = .ok [] ∧
    fetch_recent_entries (singletonWorld rawUndated) 0 = .ok [] :=
  ⟨rfl, rfl, rfl⟩

set_option maxHeartbeats 2000000 in
/-- Decoding HTML character references never lengthens the text: each
recognized reference (at least four code points) becomes one
character. -/
theorem unescapeList_length (l : List Char) : (unescapeList l).length ≤ l.length := by
  induction l using unescapeList.induct <;> simp [unescapeList] <;> omega

/-- Prepending a character preserves the known last element of a
non-empty list. -/
theorem getLast?_cons_of_getLast? (c x : Char) (l : List Char)
    (h : l.getLast? = some x) : (c :: l).getLast? = some x := by
  cases l with
  | nil => simp at h
  | cons a t =>
    rw [List.getLast?_cons_cons]
    exact h

set_option maxHeartbeats 2000000 in
/-- Decoding HTML character references preserves a trailing ellipsis:
no recognized reference ends in the ellipsis character, so the final
code point survives the rewrite. -/
theorem unescapeList_getLast (l : List Char) (h : l.getLast? = some '…') :
    (unescapeList l).getLast? = some '…' := by
  induction l using unescapeList.induct with
  | case1 => simp at h
  | case2 r ih =>
    cases r with
    | nil => exact absurd h (by decide)
    | cons x xs =>
      have hx : (x :: xs).getLast? = some '…' := by
        simpa only [List.getLast?_cons_cons] using h
      simp only [unescapeList]
      exact getLast?_cons_of_getLast? _ _ _ (ih hx)
  | case3 r ih =>
    cases r with
    | nil => exact absurd h (by decide)
    | cons x xs =>
      have hx : (x :: xs).getLast? = some '…' := by
        simpa only [List.getLast?_cons_cons] using h
      simp only [unescapeList]
      exact getLast?_cons_of_getLast? _ _ _ (ih hx)
  | case4 r ih =>
    cases r with
    | nil => exact absurd h (by decide)
    | cons x xs =>
      have hx : (x :: xs).getLast? = some '…' := by
        simpa only [List.getLast?_cons_cons] using h
      simp only [unescapeList]
      exact getLast?_cons_of_getLast? _ _ _ (ih hx)
  | case5 r ih =>
    cases r with
    | nil => exact absurd h (by decide)
    | cons x xs =>
      have hx : (x :: xs).getLast? = some '…' := by
        simpa only [List.getLast?_cons_cons] using h
      simp only [unescapeList]
      exact getLast?_cons_of_getLast? _ _ _ (ih hx)
  | case6 r ih =>
    cases r with
    | nil => exact absurd h (by decide)
    | cons x xs =>
      have hx : (x :: xs).getLast? = some '…' := by
        simpa only [List.getLast?_cons_cons] using h
      simp only [unescapeList]
      exact getLast?_cons_of_getLast? _ _ _ (ih hx)
  | case7 r hm1 hm2 hm3 hm4 hm5 ih =>
    cases r with
    | nil => exact absurd h (by decide)
    | cons x xs =>
      have hx : (x :: xs).getLast? = some '…' := by
        simpa only [List.getLast?_cons_cons] using h
      simp [unescapeList]
      exact getLast?_cons_of_getLast? _ _ _ (ih hx)
  | case8 c rest hc ih =>
    cases rest with
    | nil =>
      have hcx : c = '…' := by simpa using h
      subst hcx
      simp [unescapeList]
    | cons x xs =>
      have hx : (x :: xs).getLast? = some '…' := by
        simpa only [List.getLast?_cons_cons] using h
      simp [unescapeList]
      exact getLast?_cons_of_getLast? _ _ _ (ih hx)

/-- Every word produced by the split worker is non-empty and contains
no whitespace, provided the running accumulator does not either. -/
theorem splitWsAux_sound (l : List Char) (acc : List Char)
    (hacc : ∀ c ∈ acc, pyIsSpace c = false) :
    ∀ w ∈ splitWsAux acc l, w ≠ [] ∧ ∀ c ∈ w, pyIsSpace c = false := by
  induction l generalizing acc with
  | nil =>
    intro w hw
    by_cases he : acc.isEmpty
    · simp [splitWsAux, he] at hw
    · simp only [splitWsAux, he, if_false, Bool.false_eq_true, ite_false,
        List.mem_singleton] at hw
      subst hw
      have hne : acc ≠ [] := by simpa [List.isEmpty_iff] using he
      refine ⟨by simpa using hne, ?_⟩
      intro c hc
      exact hacc c (List.mem_reverse.mp hc)
  | cons c rest ih =>
    intro w hw
    by_cases hws : pyIsSpace c
    · by_cases he : acc.isEmpty
      · simp only [splitWsAux, hws, he, ite_true] at hw
        exact ih [] (by simp) w hw
      · simp only [splitWsAux, hws, he, ite_true, if_false, Bool.false_eq_true, ite_false,
          List.mem_cons] at hw
        rcases hw with rfl | hw
        · have hne : acc ≠ [] := by simpa [List.isEmpty_iff] using he
          refine ⟨by simpa using hne, ?_⟩
          intro d hd
          exact hacc d (List.mem_reverse.mp hd)
        · exact ih [] (by simp) w hw
    · simp only [splitWsAux, hws, if_false, Bool.false_eq_true, ite_false] at hw
      refine ih (c :: acc) ?_ w hw
      intro d hd
      rcases List.mem_cons.mp hd with rfl | hd
      · simpa using hws
      · exact hacc d hd

/-- The split worker consumes a whitespace-free word as a whole,
moving it (reversed) into the accumulator. -/
theorem splitWsAux_word_append (w : List Char) (rest acc : List Char)
    (hw : ∀ c ∈ w, pyIsSpace c = false) :
    splitWsAux acc (w ++ rest) = splitWsAux (w.reverse ++ acc) rest := by
  induction w generalizing acc with
  | nil => simp
  | cons c w2 ih =>
    have hc : pyIsSpace c = false := hw c (by simp)
    rw [List.cons_append]
    show splitWsAux acc (c :: (w2 ++ rest)) = _
    simp only [splitWsAux, hc, Bool.false_eq_true, if_false, ite_false]
    rw [ih (c :: acc) (fun d hd => hw d (by simp [hd]))]
    simp [List.append_assoc]

/-- Splitting the space-joined image of a list of non-empty
whitespace-free words returns exactly that list: `" ".join(words)` and
`str.split()` are inverse on canonical word lists. -/
theorem pySplitWs_joinSpaces (ws : List (List Char))
    (hws : ∀ w ∈ ws, w ≠ [] ∧ ∀ c ∈ w, pyIsSpace c = false) :
    pySplitWs (joinSpaces ws) = ws := by
  induction ws with
  | nil => rfl
  | cons w ws2 ih =>
    obtain ⟨hne, hchars⟩ := hws w (by simp)
    have hrevne : w.reverse ≠ [] := by simpa using hne
    cases ws2 with
    | nil =>
      show splitWsAux [] (joinSpaces [w]) = [w]
      have hj : joinSpaces [w] = w ++ [] := by simp [joinSpaces]
      rw [hj, splitWsAux_word_append w [] [] hchars, List.append_nil]
      simp only [splitWsAux, List.isEmpty_eq_true, hrevne, if_false, ite_false]
      simp
    | cons w2 ws3 =>
      show splitWsAux [] (joinSpaces (w :: w2 :: ws3)) = w :: w2 :: ws3
      have hj : joinSpaces (w :: w2 :: ws3) = w ++ ' ' :: joinSpaces (w2 :: ws3) := rfl
      rw [hj, splitWsAux_word_append w _ [] hchars, List.append_nil]
      have hsp : pyIsSpace ' ' = true := by decide
      simp only [splitWsAux, hsp, ite_true, List.isEmpty_eq_true, hrevne, if_false, ite_false,
        List.reverse_reverse]
      congr 1
      exact ih (fun v hv => hws v (by simp [hv]))

/-- Collapsing whitespace is idempotent at the word level: splitting the
collapsed text recovers the same word list. -/
theorem pySplitWs_collapse (l : List Char) :
    pySplitWs (joinSpaces (pySplitWs l)) = pySplitWs l :=
  pySplitWs_joinSpaces _ (fun w hw => splitWsAux_sound l [] (by simp) w hw)

/-- The greedy line fill never exceeds the budget when its accumulator
is already within it. -/
theorem joinWordsFit_length (budget : Nat) (ws : List (List Char)) (acc : List Char)
    (h : acc.length ≤ budget) : (joinWordsFit budget acc ws).length ≤ budget := by
  induction ws generalizing acc with
  | nil => simpa [joinWordsFit] using h
  | cons w ws2 ih =>
    by_cases hfit : acc.length + 1 + w.length ≤ budget
    · simp only [joinWordsFit, if_pos hfit]
      refine ih (acc ++ ' ' :: w) ?_
      simp only [List.length_append, List.length_cons]
      omega
    · simp only [joinWordsFit, if_neg hfit]
      exact h

/-- The first `textwrap` line always fits the budget, also when a long
first word is broken. -/
theorem takeFit_length (budget : Nat) (ws : List (List Char)) :
    (takeFit budget ws).length ≤ budget := by
  cases ws with
  | nil => simp [takeFit]
  | cons w ws2 =>
    by_cases hw : w.length ≤ budget
    · simp only [takeFit, if_pos hw]
      exact joinWordsFit_length budget ws2 w hw
    · simp [takeFit, if_neg hw]

/-- `textwrap.shorten` output never exceeds the width. -/
theorem shortenList_length (width : Nat) (ph text : List Char) (hp : ph.length ≤ width) :
    (shortenList width ph text).length ≤ width := by
  unfold shortenList
  by_cases hc : (joinSpaces (pySplitWs text)).length ≤ width
  · simpa [hc] using hc
  · simp only [if_neg hc, List.length_append]
    have := takeFit_length (width - ph.length) (pySplitWs text)
    omega

/-- When `textwrap.shorten` truncates, its output ends with the
placeholder. -/
theorem shortenList_getLast_of_long (width : Nat) (ph text : List Char) (hph : ph ≠ [])
    (hc : ¬ (joinSpaces (pySplitWs text)).length ≤ width) :
    (shortenList width ph text).getLast? = ph.getLast? := by
  unfold shortenList
  simp only [if_neg hc]
  exact List.getLast?_append_of_ne_nil _ hph

/-- The executable `html.unescape` instance never lengthens a
string. -/
theorem html_unescape_length (s : String) : (html_unescape s).length ≤ s.length :=
  unescapeList_length s.data

/-- The executable `html.unescape` instance preserves a trailing
ellipsis. -/
theorem html_unescape_getLast (s : String) (h : s.data.getLast? = some '…') :
    (html_unescape s).data.getLast? = some '…' :=
  unescapeList_getLast s.data h

/-- The executable `textwrap.shorten` instance respects the width. -/
theorem pyShorten_length (t : String) (w : Nat) (ph : String) (h : ph.length ≤ w) :
    (pyShorten t w ph).length ≤ w :=
  shortenList_length w ph.data t.data h

/-- The executable `textwrap.shorten` instance ends with the placeholder
when its collapsed input does not fit the width. -/
theorem pyShorten_getLast (t : String) (w : Nat) (ph : String)
    (hph : ph.data.getLast? = some '…') (h : w < (collapseWs t).length) :
    (pyShorten t w ph).data.getLast? = some '…' := by
  have hphne : ph.data ≠ [] := by
    intro hx
    rw [hx] at hph
    simp at hph
  have hc : ¬ (joinSpaces (pySplitWs t.data)).length ≤ w := Nat.not_le_of_lt h
  have h2 := shortenList_getLast_of_long w ph.data t.data hphne hc
  show (shortenList w ph.data t.data).getLast? = some '…'
  rw [h2]
  exact hph

/-- Collapsing whitespace is idempotent on strings. -/
theorem collapseWs_idem (s : String) : collapseWs (collapseWs s) = collapseWs s := by
  show (⟨joinSpaces (pySplitWs (collapseWs s).data)⟩ : String) = collapseWs s
  have h : pySplitWs (collapseWs s).data = pySplitWs s.data := pySplitWs_collapse s.data
  rw [h]
  rfl

set_option maxHeartbeats 2000000 in
/-- Text without ampersands decodes to itself: no character reference
can start. -/
theorem unescapeList_of_no_amp (l : List Char) (h : '&' ∉ l) : unescapeList l = l := by
  induction l using unescapeList.induct with
  | case1 => rfl
  | case2 r ih => exact absurd (List.mem_cons_self _ _) h
  | case3 r ih => exact absurd (List.mem_cons_self _ _) h
  | case4 r ih => exact absurd (List.mem_cons_self _ _) h
  | case5 r ih => exact absurd (List.mem_cons_self _ _) h
  | case6 r ih => exact absurd (List.mem_cons_self _ _) h
  | case7 r hm1 hm2 hm3 hm4 hm5 ih => exact absurd (List.mem_cons_self _ _) h
  | case8 c rest hc ih =>
    have hr : '&' ∉ rest := fun hm => h (List.mem_cons_of_mem _ hm)
    simp [unescapeList, ih hr]

/-- Splitting a single non-empty whitespace-free word yields exactly
that word. -/
theorem pySplitWs_single (w : List Char) (hne : w ≠ [])
    (hw : ∀ c ∈ w, pyIsSpace c = false) : pySplitWs w = [w] := by
  have h := pySplitWs_joinSpaces [w] ?_
  · simpa [joinSpaces] using h
  · intro v hv
    rw [List.mem_singleton] at hv
    subst hv
    exact ⟨hne, hw⟩

/-- C6: `extract_text` is total and never propagates an extraction
failure.  The theorem quantifies over the two library calls the
function makes — `unescapeF` standing for `html.unescape` and
`shortenF` for `textwrap.shorten` — assuming only their documented
contracts, which CPython satisfies: decoding character references never
lengthens a string and never swallows a trailing ellipsis; shortening
never exceeds the width and ends with the placeholder when the
collapsed text did not fit.  Under those contracts: when the full-page
path is unavailable, raised, or produced empty text, `extract_text`
returns the sanitized fallback summary (entities decoded, whitespace
collapsed), which is at most 2000 characters and ends in an ellipsis
marker whenever the collapsed summary had to be truncated; a non-empty
full-page extraction is returned as is. -/
theorem extract_text_never_fails (unescapeF : String → String)
    (shortenF : String → Nat → String → String)
    (hUnLen : ∀ s : String, (unescapeF s).length ≤ s.length)
    (hUnLast : ∀ s : String, s.data.getLast? = some '…' →
      (unescapeF s).data.getLast? = some '…')
    (hShLen : ∀ (t : String) (w : Nat) (ph : String), ph.length ≤ w →
      (shortenF t w ph).length ≤ w)
    (hShLast : ∀ (t : String) (w : Nat) (ph : String), ph.data.getLast? = some '…' →
      w < (collapseWs t).length → (shortenF t w ph).data.getLast? = some '…')
    (article : Option String) (fb : String) :
    (article = none ∨ article = some "" →
      extract_textP unescapeF shortenF article fb = fallbackCleanP unescapeF shortenF fb) ∧
    (∀ t : String, article = some t → t ≠ "" →
      extract_textP unescapeF shortenF article fb = t) ∧
    (fallbackCleanP unescapeF shortenF fb).length ≤ 2000 ∧
    (2000 < (collapseWs (unescapeF fb)).length →
      (fallbackCleanP unescapeF shortenF fb).data.getLast? = some '…') := by
  refine ⟨?_, ?_, ?_, ?_⟩
  · rintro (rfl | rfl)
    · rfl
    · rfl
  · rintro t rfl hne
    simp [extract_textP, hne]
  · exact le_trans (hUnLen _) (hShLen _ _ _ (by decide))
  · intro h
    apply hUnLast
    apply hShLast
    · rfl
    · rw [collapseWs_idem]
      exact h

/-- Witness for `extract_text_never_fails`, instantiating the library
parameters with the executable instances (which satisfy all four
contract hypotheses): a failed extraction over a 2500-character summary
falls back to the sanitized summary, which is within the 2000-character
bound and ends with the ellipsis marker; a successful non-empty
extraction is returned as is. -/
theorem extract_text_never_fails_witness :
    extract_textP html_unescape pyShorten none bigFallback =
      fallbackCleanP html_unescape pyShorten bigFallback ∧
    (fallbackCleanP html_unescape pyShorten bigFallback).length ≤ 2000 ∧
    (fallbackCleanP html_unescape pyShorten bigFallback).data.getLast? = some '…' ∧
    extract_textP html_unescape pyShorten (some "body") "x" = "body" := by
  have hbig : 2000 < (collapseWs (html_unescape bigFallback)).length := by
    have h1 : unescapeList (List.replicate 2500 'a') = List.replicate 2500 'a' := by
      refine unescapeList_of_no_amp _ ?_
      intro hm
      exact absurd (List.eq_of_mem_replicate hm) (by decide)
    have h2 : pySplitWs (List.replicate 2500 'a') = [List.replicate 2500 'a'] := by
      refine pySplitWs_single _ ?_ ?_
      · intro hnil
        have hl := congrArg List.length hnil
        rw [List.length_replicate] at hl
        exact absurd hl (by decide)
      · intro c hc
        rw [List.eq_of_mem_replicate hc]
        decide
    show 2000 < (joinSpaces (pySplitWs (unescapeList (List.replicate 2500 'a')))).length
    rw [h1, h2]
    show 2000 < (List.replicate 2500 'a').length
    rw [List.length_replicate]
    decide
  have h := extract_text_never_fails html_unescape pyShorten html_unescape_length
    html_unescape_getLast pyShorten_length pyShorten_getLast none bigFallback
  exact ⟨h.1 (Or.inl rfl), h.2.2.1, h.2.2.2 hbig,
    (extract_text_never_fails html_unescape pyShorten html_unescape_length
      html_unescape_getLast pyShorten_length pyShorten_getLast (some "body") "x").2.1
      "body" rfl (by decide)⟩
